import Mathlib

/-!
Verification of the conversation-history store and message-routing logic of
`telegram_gpt_bot_ocr.py`.

The Python program keeps an in-memory dict `user_context : Dict[int, deque]`
mapping a Telegram user id to a `deque(maxlen=24)` of chat turns
(`{"role": ..., "content": ...}` dicts).  We embed that store as an
association list from user ids to bounded lists of turns, and the handlers
(`cmd_start`, `handle_text`) as pure state-transition functions.  External
collaborators (the OpenAI completion call, the HTTP fetch, the reportlab
canvas) are modelled as explicit parameters of an environment record: each
collaborator's outcome (its returned text, or `none` for a raised
exception) is an input of the transition function, exactly at the place the
source performs the corresponding call.
-/

/-- The role tag of one chat turn; the source uses the strings
`"user"`, `"assistant"` and `"system"`. -/
inductive Role where
  | user
  | assistant
  | system
deriving DecidableEq, Repr

/-- One element of a user's conversation deque:
a dict `{"role": r, "content": c}` in the source. -/
structure Turn where
  role : Role
  content : String
deriving DecidableEq, Repr

/-- `deque(maxlen=24).append`: appending to a full deque silently evicts the
oldest (leftmost) element; below capacity it plainly appends.  (Source line
53 fixes `maxlen=24`; lines 57 and 61 append.) -/
def capAppend (l : List Turn) (t : Turn) : List Turn :=
  if l.length < 24 then l ++ [t] else l.tail ++ [t]

/-- The global `user_context` dict, embedded as an association list
(user id, conversation deque).  Python dict insertion order corresponds to
appending new keys at the end. -/
abbrev Store : Type := List (Nat × List Turn)

/-- Lookup in an association list, as Python dict indexing / `in`. -/
def alookup {β : Type} : List (Nat × β) → Nat → Option β
  | [], _ => none
  | p :: rest, k => if p.1 = k then some p.2 else alookup rest k

/-- The conversation history stored for `uid`; an absent key reads as the
empty history (the store creates it empty on first touch). -/
def historyOf (s : Store) (uid : Nat) : List Turn :=
  (alookup s uid).getD []

/-- `ensure_context(uid)`: create an empty deque for `uid` if absent
(source lines 51–53). -/
def ensure_context (uid : Nat) (s : Store) : Store :=
  match alookup s uid with
  | some _ => s
  | none => s ++ [(uid, [])]

/-- In-place mutation of the deque stored under `uid`
(`user_context[uid].append(...)` / `.clear()`). -/
def updateCtx (uid : Nat) (f : List Turn → List Turn) (s : Store) : Store :=
  s.map (fun p => if p.1 = uid then (p.1, f p.2) else p)

/-- `push_user(uid, text)` (source lines 55–57). -/
def push_user (uid : Nat) (text : String) (s : Store) : Store :=
  updateCtx uid (fun l => capAppend l ⟨Role.user, text⟩) (ensure_context uid s)

/-- `push_assistant(uid, text)` (source lines 59–61). -/
def push_assistant (uid : Nat) (text : String) (s : Store) : Store :=
  updateCtx uid (fun l => capAppend l ⟨Role.assistant, text⟩) (ensure_context uid s)

/-- The fixed system instruction `SYSTEM_PROMPT` (source lines 63–67). -/
def SYSTEM_PROMPT : String :=
  "Bạn là trợ lý chuyên gia giám định bảo hiểm xe cơ giới cho Mr.P. " ++
  "Trả lời ngắn gọn, chính xác, nêu nguyên nhân, mức độ lỗi, tài liệu cần thu thập, và bước xử lý tiếp theo. " ++
  "Sử dụng tiếng Việt. Trả lời thẳng, không vòng vo."

/-- The system turn that heads every prompt envelope. -/
def systemTurn : Turn := ⟨Role.system, SYSTEM_PROMPT⟩

/-- `build_messages(uid)` (source lines 69–72): ensures the context exists,
then returns `[system] + list(user_context[uid])` — a fresh list value.
The possibly-extended store is returned alongside, since `ensure_context`
mutates the global dict. -/
def build_messages (uid : Nat) (s : Store) : Store × List Turn :=
  let s1 := ensure_context uid s
  (s1, systemTurn :: historyOf s1 uid)

/-- `cmd_start` (source lines 139–143): ensure the context, clear it
in place, reply with the static greeting. -/
def cmd_start (uid : Nat) (s : Store) : Store × String :=
  (updateCtx uid (fun _ => []) (ensure_context uid s),
   "Chào! Gửi ảnh hiện trường, PDF biên bản hoặc mô tả vụ việc để tôi phân tích. Gõ \x27tạo báo cáo\x27 để xuất PDF.")

/-- One call to the store's append interface: `push_user` or
`push_assistant` for a fixed user. -/
inductive HistCall where
  | userMsg (text : String)
  | assistantMsg (text : String)
deriving DecidableEq, Repr

/-- The turn a call appends. -/
def callTurn : HistCall → Turn
  | .userMsg t => ⟨Role.user, t⟩
  | .assistantMsg t => ⟨Role.assistant, t⟩

/-- Execute one append call against the store. -/
def applyCall (uid : Nat) (s : Store) (c : HistCall) : Store :=
  match c with
  | .userMsg t => push_user uid t s
  | .assistantMsg t => push_assistant uid t s

/-- The last `n` elements of a list, in order. -/
def lastN (n : Nat) (l : List Turn) : List Turn :=
  l.drop (l.length - n)

/-- Python `str.lower` on one character, restricted to ASCII letters plus
the non-ASCII Vietnamese letters occurring (uppercased) in this program's
command keywords; every other character is returned unchanged. -/
def charLowerPy (c : Char) : Char :=
  if c = 'Á' then 'á'
  else if c = 'Ạ' then 'ạ'
  else if c = 'Í' then 'í'
  else if c = 'Ấ' then 'ấ'
  else c.toLower

/-- Python `text.lower()` (restricted as in `charLowerPy`). -/
def pyLower (s : String) : String :=
  String.mk (s.data.map charLowerPy)

/-- Python `text.strip()`: remove leading and trailing whitespace. -/
def pyStrip (s : String) : String :=
  String.mk (((s.data.dropWhile Char.isWhitespace).reverse.dropWhile Char.isWhitespace).reverse)

/-- Python slicing `s[:n]` (by code points). -/
def pyTake (s : String) (n : Nat) : String :=
  String.mk (s.data.take n)

/-- Python's substring test `needle in hay` on code-point lists: `needle`
occurs contiguously somewhere in `hay`. -/
def listContains : List Char → List Char → Bool
  | n, [] => n.isEmpty
  | n, h :: t => n.isPrefixOf (h :: t) || listContains n t

/-- The four branches of `handle_text`'s dispatch chain
(source lines 192, 202, 213 and the trailing default). -/
inductive Route where
  | fetch
  | extract
  | report
  | chat
deriving DecidableEq, Repr

/-- The dispatch conditions of `handle_text` (source lines 187–232),
factored out of the handler body: the handler first computes
`text = m.text.strip()` and tests, in order,
`text.lower().startswith("fetch ")`,
`text.lower().startswith("trich xuat") or text.lower().startswith("trích xuất")`,
`text.lower().startswith("tạo báo cáo") or "tạo báo cáo" in text.lower() or "báo cáo" in text.lower()`,
falling through to the default completion path. -/
def route (mtext : String) : Route :=
  let low := pyLower (pyStrip mtext)
  if "fetch ".data.isPrefixOf low.data then Route.fetch
  else if "trich xuat".data.isPrefixOf low.data || "trích xuất".data.isPrefixOf low.data then
    Route.extract
  else if "tạo báo cáo".data.isPrefixOf low.data || listContains "tạo báo cáo".data low.data
      || listContains "báo cáo".data low.data then
    Route.report
  else Route.chat

/-- Outcomes of the external collaborators and the configuration values the
text handler consults, passed explicitly where the source reads globals or
performs the call:
`webScrapeEnabled` is `WEB_SCRAPE_ENABLED`; `fetchNet url` is the outcome
of the `requests.get`/BeautifulSoup pipeline on `url` (`none` for a raised
exception, `some t` for extracted page text before the `[:3000]` cut);
`completion` is the outcome of `call_openai` (`none` for an exception);
`canvasAvailable` is whether reportlab imported; `mediaDir`, `watermark`
and `now` are `MEDIA_DIR`, `WATERMARK_TEXT` and `int(time.time())`. -/
structure BotEnv where
  webScrapeEnabled : Bool
  fetchNet : String → Option String
  completion : Option String
  canvasAvailable : Bool
  mediaDir : String
  watermark : String
  now : Nat

/-- `fetch_url_text(url)` (source lines 92–105): returns `""` when fetching
is disabled by configuration, `""` on any exception, and the extracted page
text truncated to 3000 characters otherwise. -/
def fetch_url_text (env : BotEnv) (url : String) : String :=
  if !env.webScrapeEnabled then ""
  else
    match env.fetchNet url with
    | none => ""
    | some texts => pyTake texts 3000

/-- The URL extracted in the fetch branch:
`text.split(" ", 1)[1].strip()` (source line 193).  Because the branch
guard forces the lowercased stripped text to start with `"fetch "`, the
first space sits at index 5, so the remainder after the split is
`text[6:]`. -/
def urlOf (mtext : String) : String :=
  pyStrip (String.mk ((pyStrip mtext).data.drop 6))

/-- The snippet the fetch branch obtains (source line 195). -/
def fetchSnippet (env : BotEnv) (mtext : String) : String :=
  fetch_url_text env (urlOf mtext)

/-- `generate_pdf(uid, title, content)` (source lines 107–136), with the
configuration and the timestamp as explicit arguments.  `os.path.join` is
modelled as `"/"`-concatenation.  Returns the artifact path together with
the full contents of the plain-text fallback artifact (`none` in the
reportlab branch, whose binary PDF output is the library's and is not
modelled). -/
def generate_pdf (canvasAvail : Bool) (mediaDir watermark : String) (now : Nat)
    (uid : Nat) (title content : String) : String × Option String :=
  let fpath := mediaDir ++ "/" ++ "report_" ++ toString uid ++ "_" ++ toString now ++ ".pdf"
  if canvasAvail then
    (fpath, none)
  else
    (fpath ++ ".txt",
     some ("BÁO CÁO GIÁM ĐỊNH\n\n" ++
           ("Người dùng: " ++ toString uid ++ "\nTiêu đề: " ++ title ++ "\n\n") ++
           content ++
           ("\n\n" ++ watermark)))

/-- Everything observable from one run of the text handler: the store after
the run, the replies sent (in order), and the `generate_pdf` result when a
report artifact was produced. -/
structure TextOutcome where
  state : Store
  replies : List String
  artifact : Option (String × Option String)
deriving Repr

/-- `handle_text(m)` (source lines 187–232) for a message with text `mtext`
from user `uid`, dispatching on `route mtext` (whose branch conditions are
verbatim those of the source's if-chain). -/
def handle_text (env : BotEnv) (uid : Nat) (mtext : String) (s : Store) : TextOutcome :=
  let text := pyStrip mtext
  match route mtext with
  | Route.fetch =>
    let url := urlOf mtext
    let r1 := "Đang fetch nội dung từ: " ++ url ++ " (nếu chức năng bật)"
    let snippet := fetch_url_text env url
    if snippet ≠ "" then
      { state := push_user uid ("[WEB] " ++ snippet) s,
        replies := [r1, "Trích xuất nội dung (rút gọn):\n" ++ pyTake snippet 800],
        artifact := none }
    else
      { state := s,
        replies := [r1, "Không lấy được nội dung. Chức năng crawl có thể tắt hoặc URL không cho phép."],
        artifact := none }
  | Route.extract =>
    let s1 := push_user uid ("[Yêu cầu trích xuất PDF] " ++ text) s
    match env.completion with
    | some ans =>
      { state := push_assistant uid ans s1,
        replies := ["Bắt đầu trích xuất PDF (nếu có).", ans],
        artifact := none }
    | none =>
      { state := s1,
        replies := ["Bắt đầu trích xuất PDF (nếu có).", "Lỗi khi trích xuất."],
        artifact := none }
  | Route.report =>
    match env.completion with
    | some analysis =>
      let s1 := push_assistant uid analysis s
      let pdf := generate_pdf env.canvasAvailable env.mediaDir env.watermark env.now
        uid "Báo cáo từ Bot" analysis
      { state := s1,
        replies := ["Đang tạo báo cáo PDF...", "Báo cáo tạo xong: " ++ pdf.1],
        artifact := some pdf }
    | none =>
      { state := s,
        replies := ["Đang tạo báo cáo PDF...", "Lỗi khi tạo báo cáo."],
        artifact := none }
  | Route.chat =>
    let s1 := push_user uid text s
    match env.completion with
    | some ans =>
      { state := push_assistant uid ans s1,
        replies := [ans],
        artifact := none }
    | none =>
      { state := s1,
        replies := ["Lỗi khi gọi AI. Thử lại sau."],
        artifact := none }

/-!
Object-level model of the store, for the aliasing question of
`build_messages`.  Python's `user_context[uid]` is a reference to a mutable
deque object; `build_messages` returns
`[{"role": "system", ...}] + list(user_context[uid])`, a *fresh* list
object, so mutating the returned list cannot change the stored deque.  To
state that, we model list objects through an explicit heap: `lists` is the
heap (an address is an index into it) and `ctx` maps a user id to the
address of its deque.  Allocation appends at the end of the heap.
-/

/-- The heap-and-dict state of the object-level model. -/
structure HState where
  lists : List (List Turn)
  ctx : List (Nat × Nat)
deriving Repr

/-- Dereference a list object. -/
def readList (h : HState) (a : Nat) : List Turn :=
  h.lists.getD a []

/-- Overwrite the list object at address `a` — an arbitrary in-place
mutation of that object. -/
def writeList (h : HState) (a : Nat) (v : List Turn) : HState :=
  { h with lists := h.lists.set a v }

/-- `ensure_context(uid)` in the object-level model: allocate a fresh empty
deque and bind `uid` to its address if absent. -/
def ensureH (uid : Nat) (h : HState) : HState :=
  match alookup h.ctx uid with
  | some _ => h
  | none => { lists := h.lists ++ [[]], ctx := h.ctx ++ [(uid, h.lists.length)] }

/-- The history stored for `uid` in the object-level model. -/
def historyH (h : HState) (uid : Nat) : List Turn :=
  match alookup h.ctx uid with
  | none => []
  | some a => readList h a

/-- `build_messages(uid)` in the object-level model:
`[system] + list(user_context[uid])` allocates a fresh list object holding
the system turn followed by a copy of the stored deque; the address of
that fresh object is returned. -/
def build_messagesH (uid : Nat) (h : HState) : HState × Nat :=
  let h1 := ensureH uid h
  ({ h1 with lists := h1.lists ++ [systemTurn :: historyH h1 uid] }, h1.lists.length)

/-- Heap well-formedness: every address bound in the dict is allocated. -/
def WFaddr (h : HState) : Prop :=
  ∀ p ∈ h.ctx, p.2 < h.lists.length

instance wfaddrDecidable (h : HState) : Decidable (WFaddr h) :=
  inferInstanceAs (Decidable (∀ p ∈ h.ctx, p.2 < h.lists.length))

/-- A page text of 801 identical characters, longer than the 800-character
reply preview but shorter than the 3000-character fetch cut. -/
def snip801 : String := String.mk (List.replicate 801 'a')

/-- An environment with fetching enabled whose page text is `snip801`. -/
def cexEnv : BotEnv :=
  ⟨true, fun _ => some snip801, none, false, "/tmp/telegram_media", "Mr.P 0922372220", 0⟩

/-! ### Association-list lemmas -/

theorem alookup_append_right {β : Type} (l₁ l₂ : List (Nat × β)) (k : Nat)
    (h : alookup l₁ k = none) : alookup (l₁ ++ l₂) k = alookup l₂ k := by
  induction l₁ with
  | nil => rfl
  | cons p rest ih =>
    simp only [alookup, List.cons_append] at *
    by_cases hp : p.1 = k
    · simp [hp] at h
    · simp only [hp, if_false] at h ⊢
      exact ih h

theorem alookup_append_left {β : Type} (l₁ l₂ : List (Nat × β)) (k : Nat) (v : β)
    (h : alookup l₁ k = some v) : alookup (l₁ ++ l₂) k = some v := by
  induction l₁ with
  | nil => simp [alookup] at h
  | cons p rest ih =>
    simp only [alookup, List.cons_append] at *
    by_cases hp : p.1 = k
    · simp only [hp, if_true] at h ⊢
      exact h
    · simp only [hp, if_false] at h ⊢
      exact ih h

theorem alookup_mem {β : Type} (l : List (Nat × β)) (k : Nat) (v : β)
    (h : alookup l k = some v) : (k, v) ∈ l := by
  induction l with
  | nil => simp [alookup] at h
  | cons p rest ih =>
    simp only [alookup] at h
    by_cases hp : p.1 = k
    · simp only [hp, if_true, Option.some.injEq] at h
      have : p = (k, v) := by
        cases p
        simp_all
      simp [this]
    · simp only [hp, if_false] at h
      exact List.mem_cons_of_mem _ (ih h)

theorem alookup_ensure_self (uid : Nat) (s : Store) :
    alookup (ensure_context uid s) uid = some (historyOf s uid) := by
  unfold ensure_context historyOf
  cases h : alookup s uid with
  | some v => simp [h]
  | none =>
    rw [alookup_append_right _ _ _ h]
    simp [alookup, h]

theorem alookup_ensure_ne (uid uid' : Nat) (hne : uid' ≠ uid) (s : Store) :
    alookup (ensure_context uid s) uid' = alookup s uid' := by
  unfold ensure_context
  cases h : alookup s uid with
  | some v => rfl
  | none =>
    cases h2 : alookup s uid' with
    | some w => exact alookup_append_left _ _ _ _ h2
    | none =>
      rw [alookup_append_right _ _ _ h2]
      have hq : uid ≠ uid' := Ne.symm hne
      simp only [alookup, hq, if_false]

theorem alookup_updateCtx_self (uid : Nat) (f : List Turn → List Turn) (s : Store)
    (v : List Turn) (h : alookup s uid = some v) :
    alookup (updateCtx uid f s) uid = some (f v) := by
  induction s with
  | nil => simp [alookup] at h
  | cons p rest ih =>
    simp only [alookup] at h
    simp only [updateCtx, List.map_cons]
    by_cases hp : p.1 = uid
    · rw [if_pos hp] at h
      rw [if_pos hp]
      simp only [alookup]
      rw [if_pos hp, Option.some.inj h]
    · rw [if_neg hp] at h
      rw [if_neg hp]
      simp only [alookup, hp, if_false]
      exact ih h

theorem alookup_updateCtx_ne (uid uid' : Nat) (hne : uid' ≠ uid)
    (f : List Turn → List Turn) (s : Store) :
    alookup (updateCtx uid f s) uid' = alookup s uid' := by
  induction s with
  | nil => rfl
  | cons p rest ih =>
    simp only [updateCtx, List.map_cons]
    by_cases hp : p.1 = uid
    · rw [if_pos hp]
      have hq : p.1 ≠ uid' := fun hh => hne (by rw [← hh, hp])
      simp only [alookup, hq, if_false]
      exact ih
    · rw [if_neg hp]
      simp only [alookup]
      by_cases hq : p.1 = uid'
      · rw [if_pos hq, if_pos hq]
      · rw [if_neg hq, if_neg hq]
        exact ih

theorem historyOf_ensure_self (uid : Nat) (s : Store) :
    historyOf (ensure_context uid s) uid = historyOf s uid := by
  show (alookup (ensure_context uid s) uid).getD [] = historyOf s uid
  rw [alookup_ensure_self]
  rfl

theorem historyOf_update_ensure (uid : Nat) (f : List Turn → List Turn) (s : Store) :
    historyOf (updateCtx uid f (ensure_context uid s)) uid = f (historyOf s uid) := by
  show (alookup (updateCtx uid f (ensure_context uid s)) uid).getD [] = f (historyOf s uid)
  rw [alookup_updateCtx_self _ _ _ _ (alookup_ensure_self uid s)]
  rfl

theorem historyOf_push_user (uid : Nat) (t : String) (s : Store) :
    historyOf (push_user uid t s) uid = capAppend (historyOf s uid) ⟨Role.user, t⟩ :=
  historyOf_update_ensure uid _ s

theorem historyOf_push_assistant (uid : Nat) (t : String) (s : Store) :
    historyOf (push_assistant uid t s) uid = capAppend (historyOf s uid) ⟨Role.assistant, t⟩ :=
  historyOf_update_ensure uid _ s

/-! ### Bounded-append lemmas -/

theorem capAppend_length (l : List Turn) (t : Turn) (h : l.length ≤ 24) :
    (capAppend l t).length ≤ 24 := by
  unfold capAppend
  by_cases hlt : l.length < 24
  · simp only [hlt, if_true, List.length_append, List.length_singleton]
    omega
  · simp only [hlt, if_false, List.length_append, List.length_tail, List.length_singleton]
    omega

theorem capAppend_eq_lastN (l : List Turn) (t : Turn) (h : l.length ≤ 24) :
    capAppend l t = lastN 24 (l ++ [t]) := by
  unfold capAppend lastN
  by_cases hlt : l.length < 24
  · rw [if_pos hlt]
    have h0 : (l ++ [t]).length - 24 = 0 := by
      rw [List.length_append, List.length_singleton]
      omega
    rw [h0, List.drop_zero]
  · rw [if_neg hlt]
    have h24 : l.length = 24 := by omega
    cases l with
    | nil => simp at h24
    | cons x xs =>
      have h23 : xs.length = 23 := by
        rw [List.length_cons] at h24
        omega
      have h1 : ((x :: xs) ++ [t]).length - 24 = 1 := by
        rw [List.length_append, List.length_cons, List.length_singleton, h23]
      rw [h1]
      simp [List.cons_append]

theorem drop_len_add (c d : List Turn) (k : Nat) :
    (c ++ d).drop (c.length + k) = d.drop k := by
  induction c with
  | nil => simp
  | cons x xs ih =>
    simp only [List.cons_append, List.length_cons]
    have harith : xs.length + 1 + k = (xs.length + k) + 1 := by omega
    rw [harith, List.drop_succ_cons, ih]

theorem lastN_append_ge (c d : List Turn) (h : 24 ≤ d.length) :
    lastN 24 (c ++ d) = lastN 24 d := by
  unfold lastN
  have harith : (c ++ d).length - 24 = c.length + (d.length - 24) := by
    simp only [List.length_append]
    omega
  rw [harith, drop_len_add]

theorem lastN_lastN_append (a b : List Turn) :
    lastN 24 (lastN 24 a ++ b) = lastN 24 (a ++ b) := by
  by_cases h : a.length ≤ 24
  · have h0 : a.length - 24 = 0 := by omega
    simp [lastN, h0]
  · have h1 : (a.drop (a.length - 24)).length = 24 := by
      simp only [List.length_drop]
      omega
    have step : lastN 24 (a ++ b) = lastN 24 (a.drop (a.length - 24) ++ b) := by
      conv_lhs => rw [← List.take_append_drop (a.length - 24) a]
      rw [List.append_assoc]
      refine lastN_append_ge _ _ ?_
      simp only [List.length_append, h1]
      omega
    rw [step]
    rfl

theorem foldl_capAppend (ts : List Turn) :
    ∀ init : List Turn, init.length ≤ 24 →
      ts.foldl capAppend init = lastN 24 (init ++ ts) := by
  induction ts with
  | nil =>
    intro init h
    have h0 : init.length - 24 = 0 := by omega
    simp [lastN, h0]
  | cons t ts ih =>
    intro init h
    rw [List.foldl_cons, ih _ (capAppend_length _ _ h), capAppend_eq_lastN _ _ h,
        lastN_lastN_append, List.append_assoc]
    rfl

theorem historyOf_applyCall (uid : Nat) (s : Store) (c : HistCall) :
    historyOf (applyCall uid s c) uid = capAppend (historyOf s uid) (callTurn c) := by
  cases c with
  | userMsg t => exact historyOf_push_user uid t s
  | assistantMsg t => exact historyOf_push_assistant uid t s

theorem historyOf_foldl_applyCall (uid : Nat) (calls : List HistCall) :
    ∀ s : Store,
      historyOf (calls.foldl (applyCall uid) s) uid
        = (calls.map callTurn).foldl capAppend (historyOf s uid) := by
  induction calls with
  | nil => intro s; rfl
  | cons c cs ih =>
    intro s
    rw [List.foldl_cons, ih, List.map_cons, List.foldl_cons, historyOf_applyCall]

/-! ### Claims about the Conversation Store -/

/-- Claim C1: for every user and every sequence of append calls to that
user's conversation history whose length exceeds the capacity 24, the
stored history afterwards equals exactly the last 24 appended turns, in
their original relative order (oldest turns evicted first, never an
error). -/
theorem appends_beyond_capacity_keep_last24 (uid : Nat) (s : Store) (calls : List HistCall)
    (hlen : (historyOf s uid).length ≤ 24) (hmany : 24 < calls.length) :
    historyOf (calls.foldl (applyCall uid) s) uid = lastN 24 (calls.map callTurn) := by
  rw [historyOf_foldl_applyCall, foldl_capAppend _ _ hlen]
  refine lastN_append_ge _ _ ?_
  simp only [List.length_map]
  omega

theorem appends_beyond_capacity_keep_last24_witness :
    (historyOf ([] : Store) 5).length ≤ 24 ∧
    24 < (List.replicate 25 (HistCall.userMsg "m")).length ∧
    historyOf ((List.replicate 25 (HistCall.userMsg "m")).foldl (applyCall 5) []) 5
      = lastN 24 ((List.replicate 25 (HistCall.userMsg "m")).map callTurn) :=
  ⟨by decide, by decide,
   appends_beyond_capacity_keep_last24 5 [] _ (by decide) (by decide)⟩

/-- Claim C2: for every user and every prior history content, performing a
reset (the `/start` command) followed by a snapshot of that user's history
yields an empty sequence — `build_messages` then returns only the system
turn. -/
theorem reset_then_snapshot_is_empty (uid : Nat) (s : Store) :
    historyOf (cmd_start uid s).1 uid = [] ∧
    (build_messages uid (cmd_start uid s).1).2 = [systemTurn] := by
  have h : historyOf (cmd_start uid s).1 uid = [] := by
    show historyOf (updateCtx uid (fun _ => []) (ensure_context uid s)) uid = []
    rw [historyOf_update_ensure]
  refine ⟨h, ?_⟩
  show systemTurn :: historyOf (ensure_context uid (cmd_start uid s).1) uid = [systemTurn]
  rw [historyOf_ensure_self, h]

/-- Claim C10: every Conversation Store operation (ensure, append of a
user or assistant turn, reset) for one user identifier leaves the
histories of all other user identifiers unchanged. -/
theorem ops_preserve_other_users (uid uid' : Nat) (hne : uid' ≠ uid) (s : Store) (t : String) :
    historyOf (ensure_context uid s) uid' = historyOf s uid' ∧
    historyOf (push_user uid t s) uid' = historyOf s uid' ∧
    historyOf (push_assistant uid t s) uid' = historyOf s uid' ∧
    historyOf (cmd_start uid s).1 uid' = historyOf s uid' := by
  have he : historyOf (ensure_context uid s) uid' = historyOf s uid' := by
    show (alookup (ensure_context uid s) uid').getD [] = (alookup s uid').getD []
    rw [alookup_ensure_ne _ _ hne]
  have hu : ∀ f : List Turn → List Turn,
      historyOf (updateCtx uid f (ensure_context uid s)) uid' = historyOf s uid' := by
    intro f
    show (alookup (updateCtx uid f (ensure_context uid s)) uid').getD []
      = (alookup s uid').getD []
    rw [alookup_updateCtx_ne _ _ hne, alookup_ensure_ne _ _ hne]
  refine ⟨he, hu _, hu _, ?_⟩
  show historyOf (updateCtx uid (fun _ => []) (ensure_context uid s)) uid' = historyOf s uid'
  exact hu _

theorem ops_preserve_other_users_witness :
    (2 : Nat) ≠ 1 ∧
    (historyOf (ensure_context 1 [(2, [⟨Role.user, "x"⟩])]) 2
        = historyOf [(2, [⟨Role.user, "x"⟩])] 2 ∧
      historyOf (push_user 1 "t" [(2, [⟨Role.user, "x"⟩])]) 2
        = historyOf [(2, [⟨Role.user, "x"⟩])] 2 ∧
      historyOf (push_assistant 1 "t" [(2, [⟨Role.user, "x"⟩])]) 2
        = historyOf [(2, [⟨Role.user, "x"⟩])] 2 ∧
      historyOf (cmd_start 1 [(2, [⟨Role.user, "x"⟩])]).1 2
        = historyOf [(2, [⟨Role.user, "x"⟩])] 2) :=
  ⟨by decide, ops_preserve_other_users 1 2 (by decide) [(2, [⟨Role.user, "x"⟩])] "t"⟩

/-! ### Heap-model lemmas -/

theorem getD_set_ne (l : List (List Turn)) :
    ∀ (a b : Nat) (v : List Turn), a ≠ b → (l.set a v).getD b [] = l.getD b [] := by
  induction l with
  | nil =>
    intro a b v _
    simp
  | cons x xs ih =>
    intro a b v hab
    cases a with
    | zero =>
      cases b with
      | zero => exact absurd rfl hab
      | succ b' => simp [List.set]
    | succ a' =>
      cases b with
      | zero => simp [List.set]
      | succ b' =>
        simp only [List.set, List.getD_cons_succ]
        exact ih a' b' v (fun hh => hab (by rw [hh]))

theorem getD_append_len (l : List (List Turn)) (x : List Turn) :
    (l ++ [x]).getD l.length [] = x := by
  induction l with
  | nil => rfl
  | cons y ys ih =>
    simp only [List.cons_append, List.length_cons, List.getD_cons_succ]
    exact ih

theorem getD_append_left (l l₂ : List (List Turn)) :
    ∀ b : Nat, b < l.length → (l ++ l₂).getD b [] = l.getD b [] := by
  induction l with
  | nil =>
    intro b hb
    simp at hb
  | cons x xs ih =>
    intro b hb
    cases b with
    | zero => rfl
    | succ b' =>
      simp only [List.cons_append, List.getD_cons_succ]
      refine ih b' ?_
      rw [List.length_cons] at hb
      omega

theorem wfaddr_ensure (uid : Nat) (h : HState) (hwf : WFaddr h) : WFaddr (ensureH uid h) := by
  unfold WFaddr ensureH
  cases hl : alookup h.ctx uid with
  | some a =>
    exact hwf
  | none =>
    intro p hp
    simp only [List.mem_append, List.mem_singleton] at hp
    simp only [List.length_append, List.length_singleton]
    cases hp with
    | inl hmem =>
      have := hwf p hmem
      omega
    | inr heq =>
      rw [heq]
      omega

theorem historyH_ensure (uid uid' : Nat) (h : HState) (hwf : WFaddr h) :
    historyH (ensureH uid h) uid' = historyH h uid' := by
  unfold historyH ensureH
  cases hl : alookup h.ctx uid with
  | some a => rfl
  | none =>
    simp only []
    by_cases he : uid' = uid
    · rw [he, alookup_append_right _ _ _ hl]
      simp only [alookup, if_pos rfl, hl]
      show readList ⟨h.lists ++ [[]], _⟩ h.lists.length = []
      unfold readList
      exact getD_append_len _ _
    · cases h2 : alookup h.ctx uid' with
      | none =>
        rw [alookup_append_right _ _ _ h2]
        have hq : uid ≠ uid' := Ne.symm he
        simp only [alookup, hq, if_false]
      | some b =>
        rw [alookup_append_left _ _ _ _ h2]
        have hb : b < h.lists.length := hwf _ (alookup_mem _ _ _ h2)
        show readList ⟨h.lists ++ [[]], _⟩ b = readList h b
        unfold readList
        exact getD_append_left _ _ _ hb

/-- Claim C7: `build_messages` returns the current turns behind a fresh
list object — the snapshot is not a mutable alias of the stored deque:
overwriting the returned list leaves every stored per-user history
unchanged. -/
theorem build_messages_returns_fresh_copy (h : HState) (uid : Nat) (hwf : WFaddr h) :
    readList (build_messagesH uid h).1 (build_messagesH uid h).2
      = systemTurn :: historyH h uid ∧
    ∀ (v : List Turn) (uid' : Nat),
      historyH (writeList (build_messagesH uid h).1 (build_messagesH uid h).2 v) uid'
        = historyH (build_messagesH uid h).1 uid' := by
  have hwf1 : WFaddr (ensureH uid h) := wfaddr_ensure uid h hwf
  constructor
  · show readList ⟨(ensureH uid h).lists ++ [systemTurn :: historyH (ensureH uid h) uid], _⟩
      (ensureH uid h).lists.length = systemTurn :: historyH h uid
    unfold readList
    simp only []
    rw [getD_append_len, historyH_ensure uid uid h hwf]
  · intro v uid'
    show (match alookup (ensureH uid h).ctx uid' with
          | none => ([] : List Turn)
          | some a =>
            readList (writeList (build_messagesH uid h).1 (build_messagesH uid h).2 v) a)
      = (match alookup (ensureH uid h).ctx uid' with
          | none => ([] : List Turn)
          | some a => readList (build_messagesH uid h).1 a)
    cases h2 : alookup (ensureH uid h).ctx uid' with
    | none => rfl
    | some b =>
      have hb : b < (ensureH uid h).lists.length := hwf1 _ (alookup_mem _ _ _ h2)
      show (((ensureH uid h).lists ++ [systemTurn :: historyH (ensureH uid h) uid]).set
          (ensureH uid h).lists.length v).getD b []
        = ((ensureH uid h).lists ++ [systemTurn :: historyH (ensureH uid h) uid]).getD b []
      exact getD_set_ne _ _ _ _ (Ne.symm (Nat.ne_of_lt hb))

theorem build_messages_returns_fresh_copy_witness :
    WFaddr ⟨[[⟨Role.user, "hi"⟩]], [(1, 0)]⟩ ∧
    readList (build_messagesH 1 ⟨[[⟨Role.user, "hi"⟩]], [(1, 0)]⟩).1
        (build_messagesH 1 ⟨[[⟨Role.user, "hi"⟩]], [(1, 0)]⟩).2
      = systemTurn :: historyH ⟨[[⟨Role.user, "hi"⟩]], [(1, 0)]⟩ 1 ∧
    historyH (writeList (build_messagesH 1 ⟨[[⟨Role.user, "hi"⟩]], [(1, 0)]⟩).1
        (build_messagesH 1 ⟨[[⟨Role.user, "hi"⟩]], [(1, 0)]⟩).2 []) 1
      = historyH (build_messagesH 1 ⟨[[⟨Role.user, "hi"⟩]], [(1, 0)]⟩).1 1 :=
  ⟨by decide,
   (build_messages_returns_fresh_copy ⟨[[⟨Role.user, "hi"⟩]], [(1, 0)]⟩ 1 (by decide)).1,
   (build_messages_returns_fresh_copy ⟨[[⟨Role.user, "hi"⟩]], [(1, 0)]⟩ 1 (by decide)).2 [] 1⟩

/-! ### Claims about the Message Router and handlers -/

/-- Claim C3, counterexample: the message text `"fetch "` (the keyword with
nothing after it) does start with the fetch keyword `"fetch "`, yet the
router sends it to the default completion path — the handler strips the
text before testing the prefix, so the stripped `"fetch"` fails the test
and no earlier branch matches. -/
theorem fetch_claim_counterexample :
    "fetch ".data.isPrefixOf "fetch ".data = true ∧ route "fetch " = Route.chat := by
  exact ⟨by decide, by decide⟩

/-- Claim C3, amended: for every text message whose *stripped, lowercased*
text starts with the fetch keyword `"fetch "`, the router dispatches it to
the web-fetch path (never to the default completion path or the report
path), even when the text also contains the report keyword. -/
theorem fetch_routing_on_trimmed_text (mtext : String)
    (h : "fetch ".data.isPrefixOf (pyLower (pyStrip mtext)).data = true) :
    route mtext = Route.fetch := by
  simp [route, h]

theorem fetch_routing_on_trimmed_text_witness :
    ("fetch ".data.isPrefixOf (pyLower (pyStrip "fetch http://a.b báo cáo")).data = true) ∧
    route "fetch http://a.b báo cáo" = Route.fetch :=
  ⟨by decide, fetch_routing_on_trimmed_text _ (by decide)⟩

/-- Claim C4: when a fetch command arrives while web fetching is disabled
by configuration, the reply indicates that no content was retrieved, no
artifact is produced, and the store is left exactly as it was — in
particular no turn with role `user` containing fetched text is appended. -/
theorem fetch_disabled_leaves_history_unchanged (env : BotEnv) (uid : Nat) (mtext : String)
    (s : Store) (hr : route mtext = Route.fetch) (hd : env.webScrapeEnabled = false) :
    (handle_text env uid mtext s).state = s ∧
    (handle_text env uid mtext s).artifact = none ∧
    (handle_text env uid mtext s).replies
      = ["Đang fetch nội dung từ: " ++ urlOf mtext ++ " (nếu chức năng bật)",
         "Không lấy được nội dung. Chức năng crawl có thể tắt hoặc URL không cho phép."] := by
  have hsn : fetch_url_text env (urlOf mtext) = "" := by
    simp [fetch_url_text, hd]
  refine ⟨?_, ?_, ?_⟩ <;> simp [handle_text, hr, hsn]

theorem fetch_disabled_leaves_history_unchanged_witness :
    route "fetch http://example.com" = Route.fetch ∧
    BotEnv.webScrapeEnabled ⟨false, fun _ => some "page", some "ans", true, "/tmp", "wm", 0⟩
      = false ∧
    (handle_text ⟨false, fun _ => some "page", some "ans", true, "/tmp", "wm", 0⟩
        1 "fetch http://example.com" []).state = [] :=
  ⟨by decide, by decide,
   (fetch_disabled_leaves_history_unchanged
     ⟨false, fun _ => some "page", some "ans", true, "/tmp", "wm", 0⟩
     1 "fetch http://example.com" [] (by decide) (by decide)).1⟩

/-- Claim C5: when the completion collaborator fails on a report-request
message, the user receives the static localized failure reply, no PDF or
text artifact is created, and the store is left exactly as it was before
the call — no assistant turn is appended for that exchange. -/
theorem report_completion_failure_no_effects (env : BotEnv) (uid : Nat) (mtext : String)
    (s : Store) (hr : route mtext = Route.report) (hc : env.completion = none) :
    (handle_text env uid mtext s).state = s ∧
    (handle_text env uid mtext s).artifact = none ∧
    (handle_text env uid mtext s).replies
      = ["Đang tạo báo cáo PDF...", "Lỗi khi tạo báo cáo."] := by
  refine ⟨?_, ?_, ?_⟩ <;> simp [handle_text, hr, hc]

theorem report_completion_failure_no_effects_witness :
    route "tạo báo cáo" = Route.report ∧
    BotEnv.completion ⟨false, fun _ => none, none, true, "/tmp", "wm", 0⟩ = none ∧
    (handle_text ⟨false, fun _ => none, none, true, "/tmp", "wm", 0⟩ 2 "tạo báo cáo" []).state
      = [] :=
  ⟨by decide, by decide,
   (report_completion_failure_no_effects ⟨false, fun _ => none, none, true, "/tmp", "wm", 0⟩
     2 "tạo báo cáo" [] (by decide) (by decide)).1⟩

/-- Claim C9: on a report-request message that succeeds, the user's raw
request text is never appended to the store: the exchange changes the
user's history exactly by one capacity-bounded append of the assistant's
answer. -/
theorem report_success_single_assistant_turn (env : BotEnv) (uid : Nat) (mtext : String)
    (s : Store) (ans : String)
    (hr : route mtext = Route.report) (hc : env.completion = some ans) :
    (handle_text env uid mtext s).state = push_assistant uid ans s ∧
    historyOf (handle_text env uid mtext s).state uid
      = capAppend (historyOf s uid) ⟨Role.assistant, ans⟩ := by
  have h1 : (handle_text env uid mtext s).state = push_assistant uid ans s := by
    simp [handle_text, hr, hc]
  exact ⟨h1, by rw [h1, historyOf_push_assistant]⟩

theorem report_success_single_assistant_turn_witness :
    route "tạo báo cáo" = Route.report ∧
    BotEnv.completion ⟨false, fun _ => none, some "ans", true, "/tmp", "wm", 0⟩ = some "ans" ∧
    (handle_text ⟨false, fun _ => none, some "ans", true, "/tmp", "wm", 0⟩ 2 "tạo báo cáo"
        []).state = push_assistant 2 "ans" [] :=
  ⟨by decide, by decide,
   (report_success_single_assistant_turn ⟨false, fun _ => none, some "ans", true, "/tmp", "wm", 0⟩
     2 "tạo báo cáo" [] "ans" (by decide) (by decide)).1⟩

set_option maxRecDepth 8000

/-- Claim C8, counterexample: with a successfully fetched 801-character
snippet, the turn appended to the store is `"[WEB] "` followed by the
*full* snippet, which differs from the snippet truncated to the
800-character preview length used in the reply — the claim that the stored
turn holds the truncated snippet is false. -/
theorem web_turn_truncation_counterexample :
    historyOf (handle_text cexEnv 9 "fetch http://e.com" []).state 9
      = [⟨Role.user, "[WEB] " ++ snip801⟩] ∧
    ("[WEB] " ++ snip801) ≠ ("[WEB] " ++ pyTake snip801 800) := by
  exact ⟨by decide, by decide⟩

/-- Claim C8, amended: on a fetch command for which the collaborator
returns a non-empty snippet, the web-sourced turn appended to history
contains the full returned snippet (prefixed with `"[WEB] "`), *not*
truncated; only the reply shows the snippet cut to the fixed
800-character preview. -/
theorem web_turn_contains_full_snippet (env : BotEnv) (uid : Nat) (mtext : String)
    (s : Store) (hr : route mtext = Route.fetch) (hs : fetchSnippet env mtext ≠ "") :
    (handle_text env uid mtext s).state
      = push_user uid ("[WEB] " ++ fetchSnippet env mtext) s ∧
    historyOf (handle_text env uid mtext s).state uid
      = capAppend (historyOf s uid) ⟨Role.user, "[WEB] " ++ fetchSnippet env mtext⟩ ∧
    (handle_text env uid mtext s).replies
      = ["Đang fetch nội dung từ: " ++ urlOf mtext ++ " (nếu chức năng bật)",
         "Trích xuất nội dung (rút gọn):\n" ++ pyTake (fetchSnippet env mtext) 800] := by
  have hs' : fetch_url_text env (urlOf mtext) ≠ "" := hs
  have h1 : (handle_text env uid mtext s).state
      = push_user uid ("[WEB] " ++ fetchSnippet env mtext) s := by
    simp [handle_text, hr, hs', fetchSnippet]
  refine ⟨h1, by rw [h1, historyOf_push_user], ?_⟩
  simp [handle_text, hr, hs', fetchSnippet]

theorem web_turn_contains_full_snippet_witness :
    route "fetch http://e.com" = Route.fetch ∧
    fetchSnippet cexEnv "fetch http://e.com" ≠ "" ∧
    (handle_text cexEnv 9 "fetch http://e.com" []).state
      = push_user 9 ("[WEB] " ++ fetchSnippet cexEnv "fetch http://e.com") [] :=
  ⟨by decide, by decide,
   (web_turn_contains_full_snippet cexEnv 9 "fetch http://e.com" [] (by decide) (by decide)).1⟩

/-- Claim C6: when the PDF rendering library is unavailable, `generate_pdf`
produces a plain-text artifact whose contents include the exact title, the
user identifier, the content text, and the watermark string passed in, and
it returns that text artifact's filesystem location (the `.txt` path). -/
theorem generate_pdf_fallback_contains_all_fields (mediaDir watermark : String)
    (now uid : Nat) (title content : String) :
    ∃ txt : String,
      (generate_pdf false mediaDir watermark now uid title content).2 = some txt ∧
      (∃ a b : List Char, txt.data = a ++ title.data ++ b) ∧
      (∃ a b : List Char, txt.data = a ++ (toString uid).data ++ b) ∧
      (∃ a b : List Char, txt.data = a ++ content.data ++ b) ∧
      (∃ a b : List Char, txt.data = a ++ watermark.data ++ b) ∧
      (∃ p : String,
        (generate_pdf false mediaDir watermark now uid title content).1 = p ++ ".txt") := by
  refine ⟨_, rfl, ?_, ?_, ?_, ?_, ⟨_, rfl⟩⟩
  · exact ⟨("BÁO CÁO GIÁM ĐỊNH\n\n".data ++ ("Người dùng: ".data ++ ((toString uid).data
      ++ "\nTiêu đề: ".data))), "\n\n".data ++ (content.data ++ ("\n\n".data ++ watermark.data)),
      by simp [String.data_append, List.append_assoc]⟩
  · exact ⟨"BÁO CÁO GIÁM ĐỊNH\n\n".data ++ "Người dùng: ".data,
      "\nTiêu đề: ".data ++ (title.data ++ ("\n\n".data ++ (content.data
        ++ ("\n\n".data ++ watermark.data)))),
      by simp [String.data_append, List.append_assoc]⟩
  · exact ⟨"BÁO CÁO GIÁM ĐỊNH\n\n".data ++ ("Người dùng: ".data ++ ((toString uid).data
      ++ ("\nTiêu đề: ".data ++ (title.data ++ "\n\n".data)))),
      "\n\n".data ++ watermark.data,
      by simp [String.data_append, List.append_assoc]⟩
  · exact ⟨"BÁO CÁO GIÁM ĐỊNH\n\n".data ++ ("Người dùng: ".data ++ ((toString uid).data
      ++ ("\nTiêu đề: ".data ++ (title.data ++ ("\n\n".data ++ (content.data
        ++ "\n\n".data)))))), [],
      by simp [String.data_append, List.append_assoc]⟩
